import Mathlib

/-!
# DpuTaskImp: a shallow embedding of `libdpbase/src/dpu_task_imp.cpp`

The adapter between an application and the accelerator runtime is embedded as
pure functions over explicit state.

* The filesystem is a `stat` oracle. A call that does not return ends in an
  `Abort`: a fatal log, a failed `CHECK`, a failed `assert`, or an
  out-of-bounds `operator[]`, which the source leaves undefined.
* `float` is an abstract type `F`; the floating-point operations the source
  uses (`*`, `log2f`, conversion to an integer) are fields of `Externals`.
* `size_t` and `int` quantities that describe shapes, strides and addresses are
  natural numbers: negative values and signed overflow are outside the model.
  The fixed-point exponent is an `Int` with explicit two's-complement wrapping.
* Memory is a map from addresses to bytes; the caller's image buffer is a
  separate map indexed from the `input` pointer.
-/

namespace DpuTask

/-! ## Aborts -/

/-- The ways in which a call can fail to return. -/
inductive Abort where
  /-- The call ended in `LOG(FATAL) << msg`. -/
  | fatal (msg : String)
  /-- The call ended in a failed `CHECK_GT`. -/
  | check_failed
  /-- The call ended in `assert(false && "not implement")`. -/
  | assert_failed
  /-- The call indexed a `std::vector` out of bounds. -/
  | out_of_bounds
  deriving DecidableEq, Repr

/-! ## Model locator -/

/-- The result of `stat(2)` on a path: `none` when `stat` fails, otherwise the
reported `st_size`. -/
abbrev Stat := String → Option Nat

/-- The search roots, `fine_module_search_path()`. -/
def fine_module_search_path : List String :=
  [".", "/usr/share/vitis_ai_library/models", "/usr/share/vitis_ai_library/.models"]

/-- The size of a file, `filesize`: zero when `stat` fails. -/
def filesize (fs : Stat) (filename : String) : Nat :=
  match fs filename with
  | some st_size => st_size
  | none => 0

/-- The first loop of `find_module_dir_name`: the first root whose
`meta.json` has a non-zero size, `none` when the loop runs to its end. -/
def find_module_dir_name_search (fs : Stat) (name : String) : List String → Option String
  | [] => none
  | p :: ps =>
    let ret := p ++ "/" ++ name
    let fullname := ret ++ "/" ++ "meta.json"
    if filesize fs fullname > 0 then some ret
    else find_module_dir_name_search fs name ps

/-- The second loop of `find_module_dir_name`: the text streamed into `str`. -/
def find_module_dir_name_message (name : String) : String :=
  fine_module_search_path.foldl
    (fun str p =>
      let ret := p ++ "/" ++ name
      let fullname := ret ++ "/" ++ "meta.json"
      str ++ "\n\t" ++ fullname)
    ("cannot find kernel <" ++ name ++ "> after checking following files:")

/-- The function `find_module_dir_name`. -/
def find_module_dir_name (fs : Stat) (name : String) : Except Abort String :=
  match find_module_dir_name_search fs name fine_module_search_path with
  | some ret => .ok ret
  | none => .error (.fatal (find_module_dir_name_message name))

/-- The path `<root>/<name>/meta.json` that is probed for a root. -/
def meta_path (root name : String) : String :=
  root ++ "/" ++ name ++ "/" ++ "meta.json"

/-! ## Machine integers, bytes and memory -/

/-- Conversion of an integer to the signed two's-complement type of `w` bits. -/
def to_signed (w : Nat) (x : Int) : Int :=
  (x + 2 ^ (w - 1)) % 2 ^ w - 2 ^ (w - 1)

/-- A raw byte, as `memcpy` moves it. -/
abbrev Byte := Fin 256

/-- Byte-addressed memory. -/
abbrev Mem := Nat → Byte

/-- The call `memcpy(dest, src + off, n)`: `n` bytes of `src`, starting at offset
`off`, land at address `dest`; `src` is not the memory written to. -/
def memcpy (mem : Mem) (dest : Nat) (src : Mem) (off n : Nat) : Mem :=
  fun a => if dest ≤ a ∧ a < dest + n then src (off + (a - dest)) else mem a

/-- The function `copy_line_by_line`: one `memcpy` per row. -/
def copy_line_by_line (mem : Mem) (data rows cols channels stride : Nat) (input : Mem) : Mem :=
  (List.range rows).foldl
    (fun m row => memcpy m (data + row * cols * channels) input (row * stride) (cols * channels))
    mem

/-! ## The accelerator runtime, as this file sees it -/

/-- A runtime tensor, through the accessors the source calls. -/
structure Tensor where
  get_name : String
  get_dims : List Nat
  get_dim_size : Nat → Nat
  get_element_num : Nat
  get_data_type : Nat

/-- A runtime tensor buffer: its tensor and `data(index)`, which yields an
address and a byte count. -/
structure TensorBuffer where
  get_tensor : Tensor
  data : List Nat → Nat × Nat

/-- A runner with the extended interface `DpuRunnerExt`, as the runners made by
`create_dpu_runner` are: what it reports and how it answers `execute_async`
(a `uint32_t` job id and a status) and `wait` (the memory once the job is
complete). -/
structure DpuRunner (F : Type) where
  get_inputs : List TensorBuffer
  get_outputs : List TensorBuffer
  get_input_scale : List F
  get_output_scale : List F
  execute_async : List TensorBuffer → List TensorBuffer → Nat × Int
  wait : Int → Int → Mem → Mem

/-- The element type tag of a descriptor; `DT_INT8` is the only tag the source
stores. -/
inductive DataType where
  | DT_INT8
  deriving DecidableEq, Repr

/-- Modelled from the spec: the descriptor type `xilinx::ai::InputTensor`, which
is declared outside the source at hand. It has the dimensions height, width
and channel, a data pointer borrowed from the runner, a byte size and the
fixed-point exponent `fixpos`, with the type tag and the name that the
converters assign. -/
structure InputTensor where
  size : Nat
  data : Nat
  height : Nat
  width : Nat
  channel : Nat
  fixpos : Int
  dtype : DataType
  name : String
  deriving DecidableEq, Repr

/-- Modelled from the spec: the descriptor type `xilinx::ai::OutputTensor`, which
is declared outside the source at hand, with the same members as
`InputTensor`. -/
structure OutputTensor where
  size : Nat
  data : Nat
  height : Nat
  width : Nat
  channel : Nat
  fixpos : Int
  dtype : DataType
  name : String
  deriving DecidableEq, Repr

/-- What the adapter asks of its collaborators, in the order it asks. -/
inductive Call (F : Type) where
  /-- A line written with `LOG(INFO)`; its text is not kept. -/
  | log_info
  /-- The call `runners_[idx]->get_inputs()`. -/
  | get_inputs (idx : Nat)
  /-- The call `runners_[idx]->get_outputs()`. -/
  | get_outputs (idx : Nat)
  /-- The call `runners_[idx]->get_input_scale()`. -/
  | get_input_scale (idx : Nat)
  /-- The call `runners_[idx]->get_output_scale()`. -/
  | get_output_scale (idx : Nat)
  /-- The call `runners_[idx]->execute_async(inputs, outputs)`. -/
  | execute_async (idx : Nat) (inputs outputs : List TensorBuffer)
  /-- The call `runners_[idx]->wait(jobid, timeout)`. -/
  | wait (idx : Nat) (jobid timeout : Int)
  /-- A reading of `std::chrono::steady_clock::now()`. -/
  | steady_clock_now
  /-- The call `TimeMeasure::getThreadLocalForDpu().add(time)`. -/
  | time_measure_add (time : Int)
  /-- The call `NormalizeInputData(input, rows, cols, channels, stride, mean, scale, data)`. -/
  | NormalizeInputData (input : Mem) (rows cols channels stride : Nat) (mean scale : List F)
      (data : Nat)
  /-- The call `NormalizeInputDataRGB(input, rows, cols, channels, stride, mean, scale, data)`. -/
  | NormalizeInputDataRGB (input : Mem) (rows cols channels stride : Nat) (mean scale : List F)
      (data : Nat)
  /-- The call `cv::imwrite(filename, img)`. -/
  | imwrite (filename : String)

/-- Whether a call goes to a runner of the accelerator runtime. -/
def Call.is_runtime {F : Type} : Call F → Bool
  | .get_inputs _ => true
  | .get_outputs _ => true
  | .get_input_scale _ => true
  | .get_output_scale _ => true
  | .execute_async _ _ _ => true
  | .wait _ _ _ => true
  | _ => false

/-- Whether a call is a call of one of the two normalization routines. -/
def Call.is_normalize {F : Type} : Call F → Bool
  | .NormalizeInputData _ _ _ _ _ _ _ _ => true
  | .NormalizeInputDataRGB _ _ _ _ _ _ _ _ => true
  | _ => false

/-- The runner index a runtime call is made on. -/
def Call.runner_index {F : Type} : Call F → Option Nat
  | .get_inputs idx => some idx
  | .get_outputs idx => some idx
  | .get_input_scale idx => some idx
  | .get_output_scale idx => some idx
  | .execute_async idx _ _ => some idx
  | .wait idx _ _ => some idx
  | _ => none

/-- The values of the two `DEF_ENV_PARAM` switches. -/
structure EnvParam where
  DEEPHI_DPU_CONSUMING_TIME : Int
  DEBUG_DPBASE : Int

/-- Everything the source uses that is defined elsewhere: `float` arithmetic,
the library helpers and the clock. -/
structure Externals (F : Type) where
  /-- The literal `0.f`. -/
  zero : F
  /-- The literal `1.f`. -/
  one : F
  /-- The product of two `float`s. -/
  fmul : F → F → F
  /-- The function `log2f`. -/
  log2f : F → F
  /-- The integer a `float` converts to, its value truncated toward zero. -/
  float_to_int : F → Int
  /-- The width in bits of the signed integer member `fixpos` of a descriptor,
  whose declaration is outside the source at hand. -/
  fixpos_bits : Nat
  /-- The function `vitis::ai::size_of`. -/
  size_of : Nat → Nat
  /-- The function `tensor_scale` on an input descriptor. -/
  tensor_scale : InputTensor → F
  /-- The effect of `NormalizeInputData` on memory. -/
  NormalizeInputData : Mem → Nat → Nat → Nat → Nat → List F → List F → Nat → Mem → Mem
  /-- The effect of `NormalizeInputDataRGB` on memory. -/
  NormalizeInputDataRGB : Mem → Nat → Nat → Nat → Nat → List F → List F → Nat → Mem → Mem
  /-- The function `vitis::ai::DpuRunner::create_dpu_runner`. -/
  create_dpu_runner : String → List (DpuRunner F)
  /-- The clock reading, given the calls made so far. -/
  steady_clock_now : List (Call F) → Int
  /-- The conversion `duration_cast<microseconds>(d).count()` of a clock difference. -/
  duration_cast_microseconds : Int → Int

/-! ## The task object -/

/-- The data members of `DpuTaskImp`. -/
structure DpuTaskImp (F : Type) where
  model_name_ : String
  dirname_ : String
  runners_ : List (DpuRunner F)
  mean_ : List F
  scale_ : List F
  do_mean_scale_ : Bool

/-- The task object together with the memory of the tensor buffers and the
calls made so far. -/
structure State (F : Type) where
  task : DpuTaskImp F
  mem : Mem
  calls : List (Call F)

/-- The state with some more calls recorded. -/
def State.call {F : Type} (st : State F) (cs : List (Call F)) : State F :=
  { st with calls := st.calls ++ cs }

/-- The effect of `LOG_IF(INFO, cond)` on the state. -/
def State.log_if {F : Type} (st : State F) (cond : Bool) : State F :=
  if cond then st.call [.log_info] else st

/-- The constructor `DpuTaskImp::DpuTaskImp`. -/
def DpuTaskImp.new {F : Type} (fs : Stat) (ext : Externals F) (model_name : String) :
    Except Abort (DpuTaskImp F) :=
  match find_module_dir_name fs model_name with
  | .error e => .error e
  | .ok dirname =>
    .ok { model_name_ := model_name
          dirname_ := dirname
          runners_ := ext.create_dpu_runner dirname
          mean_ := List.replicate 3 ext.zero
          scale_ := List.replicate 3 ext.one
          do_mean_scale_ := false }

/-- The method `DpuTaskImp::get_num_of_tasks`. -/
def DpuTaskImp.get_num_of_tasks {F : Type} (self : DpuTaskImp F) : Nat :=
  self.runners_.length

/-- The method `DpuTaskImp::setMeanScaleBGR`. -/
def DpuTaskImp.setMeanScaleBGR {F : Type} (self : DpuTaskImp F) (mean scale : List F) :
    DpuTaskImp F :=
  let self := { self with mean_ := mean }
  let self := { self with scale_ := scale }
  { self with do_mean_scale_ := true }

/-- The method `DpuTaskImp::getMean`. -/
def DpuTaskImp.getMean {F : Type} (self : DpuTaskImp F) : List F := self.mean_

/-- The method `DpuTaskImp::getScale`. -/
def DpuTaskImp.getScale {F : Type} (self : DpuTaskImp F) : List F := self.scale_

/-! ## Tensor descriptors -/

/-- The expression `(int8_t)log2f(scale)`. A value outside the range of
`int8_t` wraps, as it does for the low byte of a wider conversion. -/
def log2f_int8 {F : Type} (ext : Externals F) (scale : F) : Int :=
  to_signed 8 (ext.float_to_int (ext.log2f scale))

/-- The function `convert_tensor_buffer_to_input_tensor`. The descriptor starts
value-initialised, so `data` is null until `std::tie` assigns `data` and `size`;
the `int8_t` exponent is converted to the type of the member `fixpos`. -/
def convert_tensor_buffer_to_input_tensor {F : Type} (ext : Externals F) (tb : TensorBuffer)
    (scale : F) : InputTensor :=
  let tensor := tb.get_tensor
  let ret : InputTensor :=
    { size := tensor.get_element_num * ext.size_of tensor.get_data_type
      data := 0
      height := tensor.get_dim_size 1
      width := tensor.get_dim_size 2
      channel := tensor.get_dim_size 3
      fixpos := to_signed ext.fixpos_bits (log2f_int8 ext scale)
      dtype := DataType.DT_INT8
      name := tensor.get_name }
  let dims := tensor.get_dims
  let index := dims.map (fun _ => 0)
  { ret with data := (tb.data index).1, size := (tb.data index).2 }

/-- The function `convert_tensor_buffer_to_output_tensor`. The `int8_t` exponent
is promoted to `int`, negated, and converted to the type of the member
`fixpos`. -/
def convert_tensor_buffer_to_output_tensor {F : Type} (ext : Externals F) (tb : TensorBuffer)
    (scale : F) : OutputTensor :=
  let tensor := tb.get_tensor
  let ret : OutputTensor :=
    { size := tensor.get_element_num * ext.size_of tensor.get_data_type
      data := 0
      height := tensor.get_dim_size 1
      width := tensor.get_dim_size 2
      channel := tensor.get_dim_size 3
      fixpos := to_signed ext.fixpos_bits (-(log2f_int8 ext scale))
      dtype := DataType.DT_INT8
      name := tensor.get_name }
  let dims := tensor.get_dims
  let index := dims.map (fun _ => 0)
  { ret with data := (tb.data index).1, size := (tb.data index).2 }

/-- The loop of `getInputTensor`: `c` counts the buffers seen, `ret` collects
the descriptors, and each round logs when `DEBUG_DPBASE` is set. -/
def getInputTensor_loop {F : Type} (ext : Externals F) (env : EnvParam) (scales : List F) :
    List TensorBuffer → Nat → List InputTensor → State F →
      State F × Except Abort (List InputTensor)
  | [], _, ret, st => (st, .ok ret)
  | t :: ts, c, ret, st =>
    match scales[c]? with
    | none => (st, .error .out_of_bounds)
    | some scale =>
      getInputTensor_loop ext env scales ts (c + 1)
        (ret ++ [convert_tensor_buffer_to_input_tensor ext t scale])
        (st.log_if (env.DEBUG_DPBASE != 0))

/-- The method `DpuTaskImp::getInputTensor`. -/
def getInputTensor {F : Type} (ext : Externals F) (env : EnvParam) (st : State F) (idx : Nat) :
    State F × Except Abort (List InputTensor) :=
  match st.task.runners_[idx]? with
  | none => (st, .error .out_of_bounds)
  | some runner =>
    let inputs := runner.get_inputs
    let st := st.call [.get_inputs idx]
    let scales := runner.get_input_scale
    let st := st.call [.get_input_scale idx]
    getInputTensor_loop ext env scales inputs 0 [] st

/-- The loop of `getOutputTensor`. -/
def getOutputTensor_loop {F : Type} (ext : Externals F) (env : EnvParam) (scales : List F) :
    List TensorBuffer → Nat → List OutputTensor → State F →
      State F × Except Abort (List OutputTensor)
  | [], _, ret, st => (st, .ok ret)
  | t :: ts, c, ret, st =>
    match scales[c]? with
    | none => (st, .error .out_of_bounds)
    | some scale =>
      getOutputTensor_loop ext env scales ts (c + 1)
        (ret ++ [convert_tensor_buffer_to_output_tensor ext t scale])
        (st.log_if (env.DEBUG_DPBASE != 0))

/-- The method `DpuTaskImp::getOutputTensor`. -/
def getOutputTensor {F : Type} (ext : Externals F) (env : EnvParam) (st : State F) (idx : Nat) :
    State F × Except Abort (List OutputTensor) :=
  match st.task.runners_[idx]? with
  | none => (st, .error .out_of_bounds)
  | some runner =>
    let outputs := runner.get_outputs
    let st := st.call [.get_outputs idx]
    let scales := runner.get_output_scale
    let st := st.call [.get_output_scale idx]
    getOutputTensor_loop ext env scales outputs 0 [] st

/-! ## Execution -/

/-- The method `DpuTaskImp::run`. The second component is the abort that ended
the call, if one did. -/
def run {F : Type} (ext : Externals F) (env : EnvParam) (st : State F) (idx : Nat) :
    State F × Option Abort :=
  let st := st.log_if (env.DEBUG_DPBASE != 0)
  match st.task.runners_[idx]? with
  | none => (st, some .out_of_bounds)
  | some runner =>
    let inputs := runner.get_inputs
    let st := st.call [.get_inputs idx]
    let outputs := runner.get_outputs
    let st := st.call [.get_outputs idx]
    let stv : State F × (Nat × Int) :=
      if env.DEEPHI_DPU_CONSUMING_TIME != 0 then
        let start := ext.steady_clock_now st.calls
        let st := st.call [.steady_clock_now]
        let v := runner.execute_async inputs outputs
        let st := st.call [.execute_async idx inputs outputs]
        let end_ := ext.steady_clock_now st.calls
        let st := st.call [.steady_clock_now]
        let time := ext.duration_cast_microseconds (end_ - start)
        (st.call [.time_measure_add (to_signed 32 time)], v)
      else
        let v := runner.execute_async inputs outputs
        (st.call [.execute_async idx inputs outputs], v)
    let st := stv.1
    let v := stv.2
    let jobid := to_signed 32 (v.1 % 2 ^ 32)
    let st := { st.call [.wait idx jobid (-1)] with mem := runner.wait jobid (-1) st.mem }
    (st.log_if (env.DEBUG_DPBASE != 0), none)

/-! ## Image submission -/

/-- The vector `real_scale` of `setImageBGR` and `setImageRGB`, built from
`scale_[0]`, `scale_[1]` and `scale_[2]`. -/
def real_scale {F : Type} (ext : Externals F) (self : DpuTaskImp F) (input_fixed_scale : F) :
    Except Abort (List F) :=
  match self.scale_[0]?, self.scale_[1]?, self.scale_[2]? with
  | some s0, some s1, some s2 =>
    .ok [ext.fmul s0 input_fixed_scale, ext.fmul s1 input_fixed_scale,
         ext.fmul s2 input_fixed_scale]
  | _, _, _ => .error .out_of_bounds

/-- The method `DpuTaskImp::setImageBGR(const uint8_t* input, int stride)`. -/
def setImageBGR {F : Type} (ext : Externals F) (env : EnvParam) (st : State F) (input : Mem)
    (stride : Nat) : State F × Option Abort :=
  match getInputTensor ext env st 0 with
  | (st, .error e) => (st, some e)
  | (st, .ok inputs) =>
    match inputs with
    | [] => (st, some .check_failed)
    | layer_data :: _ =>
      let input_fixed_scale := ext.tensor_scale layer_data
      match real_scale ext st.task input_fixed_scale with
      | .error e => (st, some e)
      | .ok real_scale =>
        let rows := layer_data.height
        let cols := layer_data.width
        let channels := layer_data.channel
        let data := layer_data.data
        if st.task.do_mean_scale_ then
          ({ st.call [.NormalizeInputData input rows cols channels stride st.task.mean_
                        real_scale data] with
              mem := ext.NormalizeInputData input rows cols channels stride st.task.mean_
                        real_scale data st.mem },
            none)
        else
          ({ st with mem := copy_line_by_line st.mem data rows cols channels stride input }, none)

/-- The debug block of `setImageRGB`: a log line and an image file. -/
def debug_imwrite {F : Type} (env : EnvParam) (st : State F) (filename : String) : State F :=
  if env.DEBUG_DPBASE != 0 then st.call [.log_info, .imwrite filename] else st

/-- The method `DpuTaskImp::setImageRGB(const uint8_t* input, int stride)`, with
`assert` enabled. -/
def setImageRGB {F : Type} (ext : Externals F) (env : EnvParam) (st : State F) (input : Mem)
    (stride : Nat) : State F × Option Abort :=
  match getInputTensor ext env st 0 with
  | (st, .error e) => (st, some e)
  | (st, .ok inputs) =>
    match inputs with
    | [] => (st, some .check_failed)
    | layer_data :: _ =>
      let input_fixed_scale := ext.tensor_scale layer_data
      match real_scale ext st.task input_fixed_scale with
      | .error e => (st, some e)
      | .ok real_scale =>
        let rows := layer_data.height
        let cols := layer_data.width
        let channels := layer_data.channel
        let data := layer_data.data
        let st := debug_imwrite env st "before_setinput_image.bmp"
        if st.task.do_mean_scale_ then
          let st : State F :=
            { st.call [.NormalizeInputDataRGB input rows cols channels stride st.task.mean_
                        real_scale data] with
              mem := ext.NormalizeInputDataRGB input rows cols channels stride st.task.mean_
                        real_scale data st.mem }
          (debug_imwrite env st "after_setinput_image.bmp", none)
        else
          (st, some .assert_failed)

/-- An image `cv::Mat`, through the two members the source reads. -/
structure Mat where
  data : Mem
  step : Nat

/-- The method `DpuTaskImp::setImageBGR(const cv::Mat& img)`. -/
def setImageBGR_Mat {F : Type} (ext : Externals F) (env : EnvParam) (st : State F) (img : Mat) :
    State F × Option Abort :=
  setImageBGR ext env st img.data img.step

/-- The method `DpuTaskImp::setImageRGB(const cv::Mat& img)`. -/
def setImageRGB_Mat {F : Type} (ext : Externals F) (env : EnvParam) (st : State F) (img : Mat) :
    State F × Option Abort :=
  setImageRGB ext env st img.data img.step

/-! ## Sequences of calls -/

/-- A call of a public method. -/
inductive Op (F : Type) where
  | setMeanScaleBGR (mean scale : List F)
  | setImageBGR (input : Mem) (stride : Nat)
  | setImageRGB (input : Mem) (stride : Nat)
  | run (idx : Nat)
  | getInputTensor (idx : Nat)
  | getOutputTensor (idx : Nat)
  | getMean
  | getScale

/-- Whether a call is a call of `setMeanScaleBGR`. -/
def Op.is_setMeanScaleBGR {F : Type} : Op F → Bool
  | .setMeanScaleBGR _ _ => true
  | _ => false

/-- One call: the state it leaves and the abort that ended it, if one did. -/
def step {F : Type} (ext : Externals F) (env : EnvParam) (st : State F) :
    Op F → State F × Option Abort
  | .setMeanScaleBGR mean scale => ({ st with task := st.task.setMeanScaleBGR mean scale }, none)
  | .setImageBGR input stride => setImageBGR ext env st input stride
  | .setImageRGB input stride => setImageRGB ext env st input stride
  | .run idx => run ext env st idx
  | .getInputTensor idx =>
    match getInputTensor ext env st idx with
    | (st, .error e) => (st, some e)
    | (st, .ok _) => (st, none)
  | .getOutputTensor idx =>
    match getOutputTensor ext env st idx with
    | (st, .error e) => (st, some e)
    | (st, .ok _) => (st, none)
  | .getMean => (st, none)
  | .getScale => (st, none)

/-- A sequence of calls, which ends at the first abort. -/
def exec {F : Type} (ext : Externals F) (env : EnvParam) (st : State F) :
    List (Op F) → State F × Option Abort
  | [] => (st, none)
  | op :: ops =>
    match step ext env st op with
    | (st, some e) => (st, some e)
    | (st, none) => exec ext env st ops

/-! ## Sample inputs

Concrete values at which the statements below are instantiated. The sample
collaborators take the integers for `float`; they are stand-ins with the
right shapes, not the library's code. -/

/-- A filesystem in which only the second search root holds the model `resnet50`. -/
def sample_stat : Stat := fun filename =>
  if filename = "/usr/share/vitis_ai_library/models/resnet50/meta.json" then some 4096 else none

/-- A sample input buffer: a 2 x 2 image of 3 channels at address 100. -/
def sample_input_buffer : TensorBuffer :=
  { get_tensor :=
      { get_name := "data", get_dims := [1, 2, 2, 3], get_dim_size := fun i => [1, 2, 2, 3].getD i 0,
        get_element_num := 12, get_data_type := 0 }
    data := fun _ => (100, 12) }

/-- A sample output buffer: 4 values at address 200. -/
def sample_output_buffer : TensorBuffer :=
  { get_tensor :=
      { get_name := "prob", get_dims := [1, 1, 1, 4], get_dim_size := fun i => [1, 1, 1, 4].getD i 0,
        get_element_num := 4, get_data_type := 0 }
    data := fun _ => (200, 4) }

/-- A sample runner with one input, one output and job id 7. -/
def sample_runner : DpuRunner Int :=
  { get_inputs := [sample_input_buffer]
    get_outputs := [sample_output_buffer]
    get_input_scale := [64]
    get_output_scale := [4]
    execute_async := fun _ _ => (7, 0)
    wait := fun _ _ mem => mem }

/-- A sample runner that reports no input buffer. -/
def sample_runner_no_input : DpuRunner Int :=
  { get_inputs := []
    get_outputs := [sample_output_buffer]
    get_input_scale := []
    get_output_scale := [4]
    execute_async := fun _ _ => (7, 0)
    wait := fun _ _ mem => mem }

/-- A sample per-channel transform standing in for the normalization routines. -/
def sample_normalize (input : Mem) (rows cols channels stride : Nat) (mean scale : List Int)
    (data : Nat) (mem : Mem) : Mem :=
  fun a =>
    if data ≤ a ∧ a < data + rows * cols * channels then
      let i := a - data
      let c := i % channels
      let v := (((input (i / (cols * channels) * stride + i % (cols * channels))).val : Int)
        - mean.getD c 0) * scale.getD c 1
      ⟨(v % 256).toNat % 256, Nat.mod_lt _ (by decide)⟩
    else mem a

/-- The integer part of a base-2 logarithm, by halving at most `fuel` times. -/
def sample_log2 : Nat → Nat → Nat
  | 0, _ => 0
  | fuel + 1, n => if n < 2 then 0 else sample_log2 fuel (n / 2) + 1

/-- Sample collaborators over the integers. -/
def sample_ext : Externals Int :=
  { zero := 0
    one := 1
    fmul := fun a b => a * b
    log2f := fun x => (sample_log2 64 x.toNat : Int)
    float_to_int := fun x => x
    fixpos_bits := 32
    size_of := fun _ => 1
    tensor_scale := fun t => 2 ^ t.fixpos.toNat
    NormalizeInputData := sample_normalize
    NormalizeInputDataRGB := sample_normalize
    create_dpu_runner := fun _ => [sample_runner]
    steady_clock_now := fun calls => 1000 * (calls.length : Int)
    duration_cast_microseconds := fun d => d / 1000 }

/-- Sample switches: latency measurement on, debugging off. -/
def sample_env : EnvParam := { DEEPHI_DPU_CONSUMING_TIME := 1, DEBUG_DPBASE := 0 }

/-- A sample task as the constructor leaves it. -/
def sample_task : DpuTaskImp Int :=
  { model_name_ := "resnet50"
    dirname_ := "/usr/share/vitis_ai_library/models/resnet50"
    runners_ := [sample_runner]
    mean_ := [0, 0, 0]
    scale_ := [1, 1, 1]
    do_mean_scale_ := false }

/-- A sample state: the sample task, zeroed memory, no call made. -/
def sample_state : State Int := { task := sample_task, mem := fun _ => 0, calls := [] }

/-- The sample state after `setMeanScaleBGR`. -/
def sample_state_on : State Int :=
  { sample_state with task := sample_task.setMeanScaleBGR [104, 117, 123] [1, 1, 1] }

/-- A sample state whose only runner reports no input buffer. -/
def sample_state_no_input : State Int :=
  { task := { sample_task with runners_ := [sample_runner_no_input] }, mem := fun _ => 0,
    calls := [] }

/-- The state `sample_state_no_input` after `setMeanScaleBGR`. -/
def sample_state_no_input_on : State Int :=
  { sample_state_no_input with
    task := sample_state_no_input.task.setMeanScaleBGR [104, 117, 123] [1, 1, 1] }

/-- A sample image: byte `i` holds `i`. -/
def sample_image : Mem := fun i => ⟨i % 256, Nat.mod_lt _ (by decide)⟩

/-- A sample sequence of calls without `setMeanScaleBGR`. -/
def sample_ops : List (Op Int) :=
  [.setImageBGR sample_image 6, .run 0, .getInputTensor 0, .getOutputTensor 0,
   .setImageRGB sample_image 6, .getMean, .getScale]

/-! ## Model locator: properties -/

theorem search_first (fs : Stat) (name : String) (ps : List String)
    (h : ∃ root ∈ ps, 0 < filesize fs (meta_path root name)) :
    ∃ pre root post, ps = pre ++ root :: post ∧
      find_module_dir_name_search fs name ps = some (root ++ "/" ++ name) ∧
      0 < filesize fs (meta_path root name) ∧
      ∀ p ∈ pre, filesize fs (meta_path p name) = 0 := by
  induction ps with
  | nil => simp at h
  | cons p ps ih =>
    by_cases hp : 0 < filesize fs (meta_path p name)
    · refine ⟨[], p, ps, rfl, ?_, hp, by simp⟩
      have hp2 : 0 < filesize fs (p ++ "/" ++ name ++ "/" ++ "meta.json") := hp
      simp [find_module_dir_name_search, hp2]
    · have h2 : ∃ root ∈ ps, 0 < filesize fs (meta_path root name) := by
        obtain ⟨r, hr, hpos⟩ := h
        rcases List.mem_cons.mp hr with rfl | hr
        · exact absurd hpos hp
        · exact ⟨r, hr, hpos⟩
      obtain ⟨pre, root, post, hsplit, hfind, hpos, hpre⟩ := ih h2
      refine ⟨p :: pre, root, post, by simp [hsplit], ?_, hpos, ?_⟩
      · have hp2 : ¬ 0 < filesize fs (p ++ "/" ++ name ++ "/" ++ "meta.json") := hp
        simp only [find_module_dir_name_search, gt_iff_lt, hp2, if_false]
        exact hfind
      · intro q hq
        rcases List.mem_cons.mp hq with rfl | hq
        · exact Nat.eq_zero_of_not_pos hp
        · exact hpre q hq

theorem search_none_iff (fs : Stat) (name : String) (ps : List String) :
    find_module_dir_name_search fs name ps = none ↔
      ∀ root ∈ ps, filesize fs (meta_path root name) = 0 := by
  induction ps with
  | nil => simp [find_module_dir_name_search]
  | cons p ps ih =>
    by_cases hp : 0 < filesize fs (p ++ "/" ++ name ++ "/" ++ "meta.json")
    · have hne : filesize fs (meta_path p name) ≠ 0 := Nat.pos_iff_ne_zero.mp hp
      simp [find_module_dir_name_search, hp, hne]
    · have h0 : filesize fs (meta_path p name) = 0 := Nat.eq_zero_of_not_pos hp
      simp only [find_module_dir_name_search, gt_iff_lt, hp, if_false, ih, List.mem_cons,
        forall_eq_or_imp, h0, true_and]

/-- C1: when some search root holds a `<root>/<name>/meta.json` of non-zero
size, `find_module_dir_name` returns `<root>/<name>` for the first such root of
the declared order `.`, `/usr/share/vitis_ai_library/models`,
`/usr/share/vitis_ai_library/.models`, and every root before it has no
non-empty `meta.json`. -/
theorem find_module_dir_name_first (fs : Stat) (name : String)
    (h : ∃ root ∈ fine_module_search_path, 0 < filesize fs (meta_path root name)) :
    fine_module_search_path =
        [".", "/usr/share/vitis_ai_library/models", "/usr/share/vitis_ai_library/.models"] ∧
    ∃ pre root post, fine_module_search_path = pre ++ root :: post ∧
      find_module_dir_name fs name = .ok (root ++ "/" ++ name) ∧
      0 < filesize fs (meta_path root name) ∧
      ∀ p ∈ pre, filesize fs (meta_path p name) = 0 := by
  refine ⟨rfl, ?_⟩
  obtain ⟨pre, root, post, hsplit, hfind, hpos, hpre⟩ := search_first fs name _ h
  exact ⟨pre, root, post, hsplit, by simp [find_module_dir_name, hfind], hpos, hpre⟩

/-- C2: `find_module_dir_name` ends in the fatal log exactly when no search
root holds a `<root>/<name>/meta.json` of non-zero size; the message then lists
the three probed paths in the declared order, one per line; and a directory is
returned exactly when some root holds such a file, so none is returned in the
fatal case. -/
theorem find_module_dir_name_fatal_iff (fs : Stat) (name : String) :
    ((∃ e, find_module_dir_name fs name = .error e) ↔
      ∀ root ∈ fine_module_search_path, filesize fs (meta_path root name) = 0) ∧
    (find_module_dir_name fs name =
        .error (.fatal ("cannot find kernel <" ++ name ++ "> after checking following files:"
          ++ "\n\t" ++ meta_path "." name
          ++ "\n\t" ++ meta_path "/usr/share/vitis_ai_library/models" name
          ++ "\n\t" ++ meta_path "/usr/share/vitis_ai_library/.models" name)) ↔
      ∀ root ∈ fine_module_search_path, filesize fs (meta_path root name) = 0) ∧
    ((∃ dir, find_module_dir_name fs name = .ok dir) ↔
      ∃ root ∈ fine_module_search_path, 0 < filesize fs (meta_path root name)) := by
  have hmsg : find_module_dir_name_message name =
      "cannot find kernel <" ++ name ++ "> after checking following files:"
          ++ "\n\t" ++ meta_path "." name
          ++ "\n\t" ++ meta_path "/usr/share/vitis_ai_library/models" name
          ++ "\n\t" ++ meta_path "/usr/share/vitis_ai_library/.models" name := rfl
  have hnone := search_none_iff fs name fine_module_search_path
  cases hs : find_module_dir_name_search fs name fine_module_search_path with
  | none =>
    have hall := hnone.mp hs
    refine ⟨?_, ?_, ?_⟩
    · refine ⟨fun _ => hall, fun _ => ?_⟩
      simp only [find_module_dir_name, hs]
      exact ⟨_, rfl⟩
    · simp only [find_module_dir_name, hs, hmsg, true_iff]
      exact hall
    · simp only [find_module_dir_name, hs, reduceCtorEq, exists_false, false_iff, not_exists,
        not_and, not_lt, Nat.le_zero]
      exact hall
  | some ret =>
    have hnall : ¬ ∀ root ∈ fine_module_search_path, filesize fs (meta_path root name) = 0 := by
      intro hall
      rw [hnone.mpr hall] at hs
      exact Option.noConfusion hs
    refine ⟨?_, ?_, ?_⟩
    · simp only [find_module_dir_name, hs, reduceCtorEq, exists_false, false_iff]
      exact hnall
    · simp only [find_module_dir_name, hs, reduceCtorEq, false_iff]
      exact hnall
    · simp only [find_module_dir_name, hs, Except.ok.injEq, exists_eq', true_iff]
      by_contra hcon
      apply hnall
      intro root hroot
      by_contra hne
      exact hcon ⟨root, hroot, Nat.pos_of_ne_zero hne⟩

theorem find_module_dir_name_first_witness :
    (∃ root ∈ fine_module_search_path, 0 < filesize sample_stat (meta_path root "resnet50")) ∧
    (fine_module_search_path =
        [".", "/usr/share/vitis_ai_library/models", "/usr/share/vitis_ai_library/.models"] ∧
      ∃ pre root post, fine_module_search_path = pre ++ root :: post ∧
        find_module_dir_name sample_stat "resnet50" = .ok (root ++ "/" ++ "resnet50") ∧
        0 < filesize sample_stat (meta_path root "resnet50") ∧
        ∀ p ∈ pre, filesize sample_stat (meta_path p "resnet50") = 0) :=
  have h : ∃ root ∈ fine_module_search_path,
      0 < filesize sample_stat (meta_path root "resnet50") :=
    ⟨"/usr/share/vitis_ai_library/models", by decide, by decide⟩
  ⟨h, find_module_dir_name_first sample_stat "resnet50" h⟩

/-! ## The stored normalization parameters -/

theorem log_if_task {F : Type} (st : State F) (cond : Bool) : (st.log_if cond).task = st.task := by
  unfold State.log_if State.call
  split <;> rfl

theorem log_if_mem {F : Type} (st : State F) (cond : Bool) : (st.log_if cond).mem = st.mem := by
  unfold State.log_if State.call
  split <;> rfl

theorem getInputTensor_loop_frame {F : Type} (ext : Externals F) (env : EnvParam)
    (scales : List F) (ts : List TensorBuffer) :
    ∀ (c : Nat) (ret : List InputTensor) (st : State F),
      (getInputTensor_loop ext env scales ts c ret st).1.task = st.task ∧
      (getInputTensor_loop ext env scales ts c ret st).1.mem = st.mem := by
  induction ts with
  | nil => intro c ret st; exact ⟨rfl, rfl⟩
  | cons t ts ih =>
    intro c ret st
    unfold getInputTensor_loop
    cases hs : scales[c]? with
    | none => exact ⟨rfl, rfl⟩
    | some scale =>
      simp only []
      rw [(ih _ _ _).1, (ih _ _ _).2, log_if_task, log_if_mem]
      exact ⟨rfl, rfl⟩

theorem getOutputTensor_loop_frame {F : Type} (ext : Externals F) (env : EnvParam)
    (scales : List F) (ts : List TensorBuffer) :
    ∀ (c : Nat) (ret : List OutputTensor) (st : State F),
      (getOutputTensor_loop ext env scales ts c ret st).1.task = st.task ∧
      (getOutputTensor_loop ext env scales ts c ret st).1.mem = st.mem := by
  induction ts with
  | nil => intro c ret st; exact ⟨rfl, rfl⟩
  | cons t ts ih =>
    intro c ret st
    unfold getOutputTensor_loop
    cases hs : scales[c]? with
    | none => exact ⟨rfl, rfl⟩
    | some scale =>
      simp only []
      rw [(ih _ _ _).1, (ih _ _ _).2, log_if_task, log_if_mem]
      exact ⟨rfl, rfl⟩

theorem getInputTensor_frame {F : Type} (ext : Externals F) (env : EnvParam) (st : State F)
    (idx : Nat) :
    (getInputTensor ext env st idx).1.task = st.task ∧
    (getInputTensor ext env st idx).1.mem = st.mem := by
  unfold getInputTensor
  cases st.task.runners_[idx]? with
  | none => exact ⟨rfl, rfl⟩
  | some runner => exact getInputTensor_loop_frame ext env _ _ 0 [] _

theorem getOutputTensor_frame {F : Type} (ext : Externals F) (env : EnvParam) (st : State F)
    (idx : Nat) :
    (getOutputTensor ext env st idx).1.task = st.task ∧
    (getOutputTensor ext env st idx).1.mem = st.mem := by
  unfold getOutputTensor
  cases st.task.runners_[idx]? with
  | none => exact ⟨rfl, rfl⟩
  | some runner => exact getOutputTensor_loop_frame ext env _ _ 0 [] _

theorem debug_imwrite_task {F : Type} (env : EnvParam) (st : State F) (filename : String) :
    (debug_imwrite env st filename).task = st.task := by
  unfold debug_imwrite State.call
  split <;> rfl

theorem debug_imwrite_mem {F : Type} (env : EnvParam) (st : State F) (filename : String) :
    (debug_imwrite env st filename).mem = st.mem := by
  unfold debug_imwrite State.call
  split <;> rfl

theorem run_task {F : Type} (ext : Externals F) (env : EnvParam) (st : State F) (idx : Nat) :
    (run ext env st idx).1.task = st.task := by
  unfold run
  simp only [log_if_task]
  cases st.task.runners_[idx]? with
  | none => simp only [log_if_task]
  | some runner =>
    simp only [log_if_task]
    split <;> simp [State.call, log_if_task]

theorem setImageBGR_task {F : Type} (ext : Externals F) (env : EnvParam) (st : State F)
    (input : Mem) (stride : Nat) : (setImageBGR ext env st input stride).1.task = st.task := by
  have hf := (getInputTensor_frame ext env st 0).1
  unfold setImageBGR
  rcases hg : getInputTensor ext env st 0 with ⟨st1, r⟩
  rw [hg] at hf
  simp only at hf
  cases r with
  | error e => exact hf
  | ok inputs =>
    cases inputs with
    | nil => exact hf
    | cons layer_data rest =>
      simp only []
      cases real_scale ext st1.task (ext.tensor_scale layer_data) with
      | error e => exact hf
      | ok rs =>
        simp only []
        split <;> simpa [State.call] using hf

theorem setImageRGB_task {F : Type} (ext : Externals F) (env : EnvParam) (st : State F)
    (input : Mem) (stride : Nat) : (setImageRGB ext env st input stride).1.task = st.task := by
  have hf := (getInputTensor_frame ext env st 0).1
  unfold setImageRGB
  rcases hg : getInputTensor ext env st 0 with ⟨st1, r⟩
  rw [hg] at hf
  simp only at hf
  cases r with
  | error e => exact hf
  | ok inputs =>
    cases inputs with
    | nil => exact hf
    | cons layer_data rest =>
      simp only []
      cases real_scale ext st1.task (ext.tensor_scale layer_data) with
      | error e => exact hf
      | ok rs =>
        simp only []
        split <;> simpa [State.call, debug_imwrite_task] using hf

theorem step_task {F : Type} (ext : Externals F) (env : EnvParam) (st : State F) (op : Op F)
    (h : op.is_setMeanScaleBGR = false) : (step ext env st op).1.task = st.task := by
  cases op with
  | setMeanScaleBGR mean scale => simp [Op.is_setMeanScaleBGR] at h
  | setImageBGR input stride => exact setImageBGR_task ext env st input stride
  | setImageRGB input stride => exact setImageRGB_task ext env st input stride
  | run idx => exact run_task ext env st idx
  | getInputTensor idx =>
    have hf := (getInputTensor_frame ext env st idx).1
    simp only [step]
    rcases hg : getInputTensor ext env st idx with ⟨st1, r⟩
    rw [hg] at hf
    cases r <;> exact hf
  | getOutputTensor idx =>
    have hf := (getOutputTensor_frame ext env st idx).1
    simp only [step]
    rcases hg : getOutputTensor ext env st idx with ⟨st1, r⟩
    rw [hg] at hf
    cases r <;> exact hf
  | getMean => rfl
  | getScale => rfl

theorem exec_task {F : Type} (ext : Externals F) (env : EnvParam) (ops : List (Op F)) :
    ∀ (st : State F), (∀ op ∈ ops, op.is_setMeanScaleBGR = false) →
      (exec ext env st ops).1.task = st.task := by
  induction ops with
  | nil => intro st _; rfl
  | cons op ops ih =>
    intro st h
    have hstep := step_task ext env st op (h op (List.mem_cons_self _ _))
    unfold exec
    rcases hs : step ext env st op with ⟨st1, a⟩
    rw [hs] at hstep
    cases a with
    | some e => exact hstep
    | none =>
      simp only []
      rw [ih st1 (fun o ho => h o (List.mem_cons_of_mem _ ho))]
      exact hstep

theorem exec_scale_length {F : Type} (ext : Externals F) (env : EnvParam) (ops : List (Op F)) :
    ∀ (st : State F), 3 ≤ st.task.scale_.length →
      (∀ m s, Op.setMeanScaleBGR m s ∈ ops → 3 ≤ s.length) →
      3 ≤ (exec ext env st ops).1.task.scale_.length := by
  induction ops with
  | nil => intro st h _; exact h
  | cons op ops ih =>
    intro st h hops
    have hstep : 3 ≤ (step ext env st op).1.task.scale_.length := by
      cases hop : op.is_setMeanScaleBGR with
      | false => rw [step_task ext env st op hop]; exact h
      | true =>
        cases op with
        | setMeanScaleBGR m s => exact hops m s (List.mem_cons_self _ _)
        | _ => simp [Op.is_setMeanScaleBGR] at hop
    unfold exec
    rcases hs : step ext env st op with ⟨st1, a⟩
    rw [hs] at hstep
    cases a with
    | some e => exact hstep
    | none => exact ih st1 hstep (fun m s hm => hops m s (List.mem_cons_of_mem _ hm))

theorem real_scale_ok {F : Type} (ext : Externals F) (self : DpuTaskImp F) (q : F)
    (h : 3 ≤ self.scale_.length) :
    ∃ s0 s1 s2, self.scale_[0]? = some s0 ∧ self.scale_[1]? = some s1 ∧
      self.scale_[2]? = some s2 ∧
      real_scale ext self q = .ok [ext.fmul s0 q, ext.fmul s1 q, ext.fmul s2 q] := by
  rcases hsc : self.scale_ with _ | ⟨s0, _ | ⟨s1, _ | ⟨s2, rest⟩⟩⟩
  · rw [hsc] at h; simp at h
  · rw [hsc] at h; simp at h
  · rw [hsc] at h; simp at h
  · exact ⟨s0, s1, s2, by simp, by simp, by simp, by simp [real_scale, hsc]⟩

/-- C3: after `setMeanScaleBGR(m, s)` normalization is enabled and `getMean`,
`getScale` return `m` and `s`; this still holds after any sequence of calls
that contains no further `setMeanScaleBGR`; a second call with the same pair
changes nothing, and after a call with another pair that pair is in effect. -/
theorem setMeanScaleBGR_in_effect {F : Type} (ext : Externals F) (env : EnvParam)
    (st : State F) (m s : List F) (ops : List (Op F))
    (hops : ∀ op ∈ ops, op.is_setMeanScaleBGR = false) :
    ((step ext env st (.setMeanScaleBGR m s)).2 = none ∧
      (step ext env st (.setMeanScaleBGR m s)).1.task.do_mean_scale_ = true ∧
      (step ext env st (.setMeanScaleBGR m s)).1.task.getMean = m ∧
      (step ext env st (.setMeanScaleBGR m s)).1.task.getScale = s) ∧
    ((exec ext env (step ext env st (.setMeanScaleBGR m s)).1 ops).1.task.do_mean_scale_ = true ∧
      (exec ext env (step ext env st (.setMeanScaleBGR m s)).1 ops).1.task.getMean = m ∧
      (exec ext env (step ext env st (.setMeanScaleBGR m s)).1 ops).1.task.getScale = s) ∧
    step ext env (step ext env st (.setMeanScaleBGR m s)).1 (.setMeanScaleBGR m s) =
      step ext env st (.setMeanScaleBGR m s) ∧
    ∀ m2 s2 : List F,
      step ext env (step ext env st (.setMeanScaleBGR m s)).1 (.setMeanScaleBGR m2 s2) =
        step ext env st (.setMeanScaleBGR m2 s2) ∧
      (step ext env (step ext env st (.setMeanScaleBGR m s)).1
        (.setMeanScaleBGR m2 s2)).1.task.getMean = m2 ∧
      (step ext env (step ext env st (.setMeanScaleBGR m s)).1
        (.setMeanScaleBGR m2 s2)).1.task.getScale = s2 := by
  refine ⟨⟨rfl, rfl, rfl, rfl⟩, ?_, rfl, fun m2 s2 => ⟨rfl, rfl, rfl⟩⟩
  rw [DpuTaskImp.getMean, DpuTaskImp.getScale, exec_task ext env ops _ hops]
  exact ⟨rfl, rfl, rfl⟩

theorem setMeanScaleBGR_in_effect_witness :
    (∀ op ∈ sample_ops, op.is_setMeanScaleBGR = false) ∧
    (exec sample_ext sample_env
      (step sample_ext sample_env sample_state (.setMeanScaleBGR [104, 117, 123] [1, 1, 1])).1
      sample_ops).1.task.getMean = [104, 117, 123] :=
  have h : ∀ op ∈ sample_ops, op.is_setMeanScaleBGR = false := by
    intro op hop
    simp only [sample_ops, List.mem_cons, List.mem_singleton, List.not_mem_nil, or_false] at hop
    rcases hop with rfl | rfl | rfl | rfl | rfl | rfl | rfl <;> rfl
  ⟨h, (setMeanScaleBGR_in_effect sample_ext sample_env sample_state [104, 117, 123] [1, 1, 1]
    sample_ops h).2.1.2.1⟩

/-- C10: the constructor stores a mean and a scale of exactly three entries;
a call other than `setMeanScaleBGR` leaves both vectors as they are; so in every
state reached from construction by calls whose `setMeanScaleBGR` scales have at
least three entries, the stored scale has at least three entries and the reads
of `scale_[0]`, `scale_[1]`, `scale_[2]` in `setImageBGR` and `setImageRGB` are
in bounds. -/
theorem scale_reads_in_bounds {F : Type} (fs : Stat) (ext : Externals F) (env : EnvParam)
    (name : String) (task : DpuTaskImp F) (mem : Mem) (calls : List (Call F))
    (ops : List (Op F))
    (hnew : DpuTaskImp.new fs ext name = .ok task)
    (hops : ∀ m s, Op.setMeanScaleBGR m s ∈ ops → 3 ≤ s.length) :
    (task.mean_.length = 3 ∧ task.scale_.length = 3 ∧ task.do_mean_scale_ = false) ∧
    (∀ (st : State F) (op : Op F), op.is_setMeanScaleBGR = false →
      (step ext env st op).1.task.mean_ = st.task.mean_ ∧
      (step ext env st op).1.task.scale_ = st.task.scale_) ∧
    3 ≤ (exec ext env ⟨task, mem, calls⟩ ops).1.task.scale_.length ∧
    ∀ q : F, ∃ s0 s1 s2,
      (exec ext env ⟨task, mem, calls⟩ ops).1.task.scale_[0]? = some s0 ∧
      (exec ext env ⟨task, mem, calls⟩ ops).1.task.scale_[1]? = some s1 ∧
      (exec ext env ⟨task, mem, calls⟩ ops).1.task.scale_[2]? = some s2 ∧
      real_scale ext (exec ext env ⟨task, mem, calls⟩ ops).1.task q =
        .ok [ext.fmul s0 q, ext.fmul s1 q, ext.fmul s2 q] := by
  have hinit : task.mean_.length = 3 ∧ task.scale_.length = 3 ∧ task.do_mean_scale_ = false := by
    unfold DpuTaskImp.new at hnew
    cases hf : find_module_dir_name fs name with
    | error e => rw [hf] at hnew; exact Except.noConfusion hnew
    | ok dirname =>
      rw [hf] at hnew
      injection hnew with hnew
      subst hnew
      exact ⟨rfl, rfl, rfl⟩
  have hlen : 3 ≤ (exec ext env ⟨task, mem, calls⟩ ops).1.task.scale_.length :=
    exec_scale_length ext env ops ⟨task, mem, calls⟩ (by simp [hinit.2.1]) hops
  refine ⟨hinit, ?_, hlen, fun q => real_scale_ok ext _ q hlen⟩
  intro st op hop
  rw [step_task ext env st op hop]
  exact ⟨rfl, rfl⟩

theorem scale_reads_in_bounds_witness :
    DpuTaskImp.new sample_stat sample_ext "resnet50" = .ok sample_task ∧
    (∀ m s, Op.setMeanScaleBGR m s ∈
      (Op.setMeanScaleBGR [104, 117, 123] [1, 1, 1] :: sample_ops) → 3 ≤ s.length) ∧
    3 ≤ (exec sample_ext sample_env ⟨sample_task, fun _ => 0, []⟩
      (Op.setMeanScaleBGR [104, 117, 123] [1, 1, 1] :: sample_ops)).1.task.scale_.length :=
  have hnew : DpuTaskImp.new sample_stat sample_ext "resnet50" = .ok sample_task := by rfl
  have hops : ∀ m s, Op.setMeanScaleBGR m s ∈
      (Op.setMeanScaleBGR [104, 117, 123] [1, 1, 1] :: sample_ops) → 3 ≤ s.length := by
    intro m s hm
    simp [sample_ops] at hm
    rw [hm.2]
    decide
  ⟨hnew, hops, (scale_reads_in_bounds sample_stat sample_ext sample_env "resnet50" sample_task
    (fun _ => 0) [] _ hnew hops).2.2.1⟩

/-! ## Tensor descriptors: properties -/

theorem to_signed_8_range (x : Int) : -128 ≤ to_signed 8 x ∧ to_signed 8 x ≤ 127 := by
  unfold to_signed
  norm_num
  omega

theorem to_signed_8_id (k : Int) (h1 : -128 ≤ k) (h2 : k ≤ 127) : to_signed 8 k = k := by
  unfold to_signed
  norm_num
  omega

theorem to_signed_wide_id (w : Nat) (hw : 8 < w) (v : Int) (h1 : -128 ≤ v) (h2 : v ≤ 128) :
    to_signed w v = v := by
  unfold to_signed
  obtain ⟨n, rfl⟩ : ∃ n, w = n + 9 := ⟨w - 9, by omega⟩
  have hP : (256 : Int) ≤ 2 ^ (n + 9 - 1) := by
    have : n + 9 - 1 = n + 8 := by omega
    rw [this, pow_add]
    have : (1 : Int) ≤ 2 ^ n := one_le_pow₀ (by norm_num)
    nlinarith
  have hW : (2 : Int) ^ (n + 9) = 2 * 2 ^ (n + 9 - 1) := by
    have : n + 9 = (n + 9 - 1) + 1 := by omega
    conv_lhs => rw [this, pow_succ]
    ring
  rw [hW]
  generalize (2 : Int) ^ (n + 9 - 1) = P at hP
  rw [Int.emod_eq_of_lt (by omega) (by omega)]
  omega

/-- C7: for every scale the exponent stored by
`convert_tensor_buffer_to_output_tensor` is the integer negation of the one
stored by `convert_tensor_buffer_to_input_tensor`; the input exponent is
`log2f(scale)` converted to a signed 8-bit integer; and when that logarithm is
an integer `k` with `-128 ≤ k ≤ 127`, as it is for `scale = 2^k`, the input
exponent is `k` and the output exponent is `-k`. The field `fixpos` is taken
wider than 8 bits, as an `int` is. -/
theorem fixpos_output_negates_input {F : Type} (ext : Externals F) (tb_in tb_out : TensorBuffer)
    (scale : F) (hbits : 8 < ext.fixpos_bits) :
    (convert_tensor_buffer_to_output_tensor ext tb_out scale).fixpos =
      -(convert_tensor_buffer_to_input_tensor ext tb_in scale).fixpos ∧
    (convert_tensor_buffer_to_input_tensor ext tb_in scale).fixpos =
      to_signed 8 (ext.float_to_int (ext.log2f scale)) ∧
    (-128 ≤ (convert_tensor_buffer_to_input_tensor ext tb_in scale).fixpos ∧
      (convert_tensor_buffer_to_input_tensor ext tb_in scale).fixpos ≤ 127) ∧
    ∀ k : Int, -128 ≤ k → k ≤ 127 → ext.float_to_int (ext.log2f scale) = k →
      (convert_tensor_buffer_to_input_tensor ext tb_in scale).fixpos = k ∧
      (convert_tensor_buffer_to_output_tensor ext tb_out scale).fixpos = -k := by
  have hr := to_signed_8_range (ext.float_to_int (ext.log2f scale))
  have hin : (convert_tensor_buffer_to_input_tensor ext tb_in scale).fixpos =
      to_signed 8 (ext.float_to_int (ext.log2f scale)) := by
    show to_signed ext.fixpos_bits (log2f_int8 ext scale) = _
    exact to_signed_wide_id _ hbits _ hr.1 (by unfold log2f_int8; omega)
  have hout : (convert_tensor_buffer_to_output_tensor ext tb_out scale).fixpos =
      -to_signed 8 (ext.float_to_int (ext.log2f scale)) := by
    show to_signed ext.fixpos_bits (-(log2f_int8 ext scale)) = _
    exact to_signed_wide_id _ hbits _ (by unfold log2f_int8; omega) (by unfold log2f_int8; omega)
  refine ⟨by rw [hout, hin], hin, by rw [hin]; exact hr, ?_⟩
  intro k h1 h2 hk
  rw [hin, hout, hk, to_signed_8_id k h1 h2]
  exact ⟨rfl, rfl⟩

theorem fixpos_output_negates_input_witness :
    8 < sample_ext.fixpos_bits ∧
    (convert_tensor_buffer_to_input_tensor sample_ext sample_input_buffer 64).fixpos = 6 ∧
    (convert_tensor_buffer_to_output_tensor sample_ext sample_output_buffer 64).fixpos = -6 :=
  ⟨by decide,
    (fixpos_output_negates_input sample_ext sample_input_buffer sample_output_buffer 64
      (by decide)).2.2.2 6 (by decide) (by decide) (by decide)⟩

theorem getInputTensor_loop_ok {F : Type} (ext : Externals F) (env : EnvParam)
    (scales : List F) (ts : List TensorBuffer) :
    ∀ (c : Nat) (ret : List InputTensor) (st : State F), c + ts.length ≤ scales.length →
      (getInputTensor_loop ext env scales ts c ret st).2 =
        .ok (ret ++ List.zipWith (convert_tensor_buffer_to_input_tensor ext) ts
          (scales.drop c)) := by
  induction ts with
  | nil => intro c ret st _; simp [getInputTensor_loop]
  | cons t ts ih =>
    intro c ret st h
    have hc : c < scales.length := by simp at h; omega
    unfold getInputTensor_loop
    rw [List.getElem?_eq_getElem hc]
    simp only []
    rw [ih (c + 1) _ _ (by simp at h; omega), List.drop_eq_getElem_cons hc]
    simp only [List.zipWith_cons_cons, List.append_assoc, List.singleton_append]

theorem getOutputTensor_loop_ok {F : Type} (ext : Externals F) (env : EnvParam)
    (scales : List F) (ts : List TensorBuffer) :
    ∀ (c : Nat) (ret : List OutputTensor) (st : State F), c + ts.length ≤ scales.length →
      (getOutputTensor_loop ext env scales ts c ret st).2 =
        .ok (ret ++ List.zipWith (convert_tensor_buffer_to_output_tensor ext) ts
          (scales.drop c)) := by
  induction ts with
  | nil => intro c ret st _; simp [getOutputTensor_loop]
  | cons t ts ih =>
    intro c ret st h
    have hc : c < scales.length := by simp at h; omega
    unfold getOutputTensor_loop
    rw [List.getElem?_eq_getElem hc]
    simp only []
    rw [ih (c + 1) _ _ (by simp at h; omega), List.drop_eq_getElem_cons hc]
    simp only [List.zipWith_cons_cons, List.append_assoc, List.singleton_append]

theorem getInputTensor_ok {F : Type} (ext : Externals F) (env : EnvParam) (st : State F)
    (idx : Nat) (runner : DpuRunner F) (hr : st.task.runners_[idx]? = some runner)
    (hs : runner.get_inputs.length ≤ runner.get_input_scale.length) :
    (getInputTensor ext env st idx).2 =
      .ok (List.zipWith (convert_tensor_buffer_to_input_tensor ext) runner.get_inputs
        runner.get_input_scale) := by
  unfold getInputTensor
  rw [hr]
  simp only []
  rw [getInputTensor_loop_ok ext env _ _ 0 [] _ (by omega)]
  simp

theorem getOutputTensor_ok {F : Type} (ext : Externals F) (env : EnvParam) (st : State F)
    (idx : Nat) (runner : DpuRunner F) (hr : st.task.runners_[idx]? = some runner)
    (hs : runner.get_outputs.length ≤ runner.get_output_scale.length) :
    (getOutputTensor ext env st idx).2 =
      .ok (List.zipWith (convert_tensor_buffer_to_output_tensor ext) runner.get_outputs
        runner.get_output_scale) := by
  unfold getOutputTensor
  rw [hr]
  simp only []
  rw [getOutputTensor_loop_ok ext env _ _ 0 [] _ (by omega)]
  simp

/-- C8: for a valid runner index whose runner reports at least as many scales
as tensor buffers, `getInputTensor` and `getOutputTensor` return one descriptor
per reported buffer, in the same order, descriptor `i` being built from buffer
`i` and scale `i`, with height, width and channel read from dimensions 1, 2, 3
of the buffer's tensor. -/
theorem descriptors_match_buffers {F : Type} (ext : Externals F) (env : EnvParam)
    (st : State F) (idx : Nat) (runner : DpuRunner F)
    (hr : st.task.runners_[idx]? = some runner) :
    idx < st.task.get_num_of_tasks ∧
    (runner.get_inputs.length ≤ runner.get_input_scale.length →
      ∃ ret, (getInputTensor ext env st idx).2 = .ok ret ∧
        ret.length = runner.get_inputs.length ∧
        ∀ (i : Nat) tb scale, runner.get_inputs[i]? = some tb → runner.get_input_scale[i]? = some scale →
          ret[i]? = some (convert_tensor_buffer_to_input_tensor ext tb scale) ∧
          (convert_tensor_buffer_to_input_tensor ext tb scale).height =
            tb.get_tensor.get_dim_size 1 ∧
          (convert_tensor_buffer_to_input_tensor ext tb scale).width =
            tb.get_tensor.get_dim_size 2 ∧
          (convert_tensor_buffer_to_input_tensor ext tb scale).channel =
            tb.get_tensor.get_dim_size 3) ∧
    (runner.get_outputs.length ≤ runner.get_output_scale.length →
      ∃ ret, (getOutputTensor ext env st idx).2 = .ok ret ∧
        ret.length = runner.get_outputs.length ∧
        ∀ (i : Nat) tb scale, runner.get_outputs[i]? = some tb →
          runner.get_output_scale[i]? = some scale →
          ret[i]? = some (convert_tensor_buffer_to_output_tensor ext tb scale) ∧
          (convert_tensor_buffer_to_output_tensor ext tb scale).height =
            tb.get_tensor.get_dim_size 1 ∧
          (convert_tensor_buffer_to_output_tensor ext tb scale).width =
            tb.get_tensor.get_dim_size 2 ∧
          (convert_tensor_buffer_to_output_tensor ext tb scale).channel =
            tb.get_tensor.get_dim_size 3) := by
  refine ⟨?_, ?_, ?_⟩
  · by_contra hcon
    rw [DpuTaskImp.get_num_of_tasks, not_lt] at hcon
    rw [List.getElem?_eq_none hcon] at hr
    exact Option.noConfusion hr
  · intro hs
    refine ⟨_, getInputTensor_ok ext env st idx runner hr hs, ?_, ?_⟩
    · rw [List.length_zipWith]; omega
    · intro i tb scale htb hsc
      refine ⟨?_, rfl, rfl, rfl⟩
      rw [List.getElem?_zipWith, htb, hsc]
  · intro hs
    refine ⟨_, getOutputTensor_ok ext env st idx runner hr hs, ?_, ?_⟩
    · rw [List.length_zipWith]; omega
    · intro i tb scale htb hsc
      refine ⟨?_, rfl, rfl, rfl⟩
      rw [List.getElem?_zipWith, htb, hsc]

theorem descriptors_match_buffers_witness :
    sample_state.task.runners_[0]? = some sample_runner ∧
    sample_runner.get_inputs.length ≤ sample_runner.get_input_scale.length ∧
    ∃ ret, (getInputTensor sample_ext sample_env sample_state 0).2 = .ok ret ∧
      ret.length = sample_runner.get_inputs.length ∧
      ∀ (i : Nat) tb scale, sample_runner.get_inputs[i]? = some tb →
        sample_runner.get_input_scale[i]? = some scale →
        ret[i]? = some (convert_tensor_buffer_to_input_tensor sample_ext tb scale) ∧
        (convert_tensor_buffer_to_input_tensor sample_ext tb scale).height =
          tb.get_tensor.get_dim_size 1 ∧
        (convert_tensor_buffer_to_input_tensor sample_ext tb scale).width =
          tb.get_tensor.get_dim_size 2 ∧
        (convert_tensor_buffer_to_input_tensor sample_ext tb scale).channel =
          tb.get_tensor.get_dim_size 3 :=
  ⟨rfl, by decide,
    (descriptors_match_buffers sample_ext sample_env sample_state 0 sample_runner rfl).2.1
      (by decide)⟩

/-! ## Execution: properties -/

theorem run_calls {F : Type} (ext : Externals F) (env : EnvParam) (st : State F) (idx : Nat)
    (runner : DpuRunner F) (hr : st.task.runners_[idx]? = some runner) :
    (run ext env st idx).2 = none ∧
    (run ext env st idx).1.calls.filter Call.is_runtime =
      st.calls.filter Call.is_runtime ++
        [.get_inputs idx, .get_outputs idx,
         .execute_async idx runner.get_inputs runner.get_outputs,
         .wait idx
            (to_signed 32 ((runner.execute_async runner.get_inputs runner.get_outputs).1 % 2 ^ 32))
            (-1)] ∧
    ∃ added : List (Call F), (run ext env st idx).1.calls = st.calls ++ added ∧
      ∀ c ∈ added, ∀ j, c.runner_index = some j → j = idx := by
  have hr2 : (st.log_if (env.DEBUG_DPBASE != 0)).task.runners_[idx]? = some runner := by
    rw [log_if_task]; exact hr
  refine ⟨by unfold run; simp only [hr2], ?_, ?_⟩
  · unfold run
    simp only [hr2]
    by_cases hd : (env.DEBUG_DPBASE != 0) = true <;>
      by_cases ht : (env.DEEPHI_DPU_CONSUMING_TIME != 0) = true <;>
      simp [hd, ht, State.log_if, State.call, List.filter_cons, Call.is_runtime]
  · unfold run
    simp only [hr2]
    by_cases hd : (env.DEBUG_DPBASE != 0) = true <;>
      by_cases ht : (env.DEEPHI_DPU_CONSUMING_TIME != 0) = true <;>
      simp [hd, ht, State.log_if, State.call, Call.runner_index]

theorem to_signed_32_id (v : Nat) (h : v < 2 ^ 31) : to_signed 32 ((v : Int) % 2 ^ 32) = v := by
  unfold to_signed
  norm_num at h ⊢
  omega

/-- C9: for a valid runner index and any values of the two switches, `run`
returns after reading the buffers of runner `idx` and making exactly one
`execute_async` on runner `idx`, given that runner's own input and output
buffers, followed by exactly one `wait` on runner `idx` for the job id that
request returned, with timeout `-1`; these runtime calls and their arguments
do not depend on the switches, and no runtime call is made on another runner. -/
theorem run_one_request_one_wait {F : Type} (ext : Externals F) (env : EnvParam)
    (st : State F) (idx : Nat) (runner : DpuRunner F)
    (hr : st.task.runners_[idx]? = some runner) :
    (run ext env st idx).2 = none ∧
    (run ext env st idx).1.calls.filter Call.is_runtime =
      st.calls.filter Call.is_runtime ++
        [.get_inputs idx, .get_outputs idx,
         .execute_async idx runner.get_inputs runner.get_outputs,
         .wait idx
            (to_signed 32 ((runner.execute_async runner.get_inputs runner.get_outputs).1 % 2 ^ 32))
            (-1)] ∧
    ((runner.execute_async runner.get_inputs runner.get_outputs).1 < 2 ^ 31 →
      to_signed 32 ((runner.execute_async runner.get_inputs runner.get_outputs).1 % 2 ^ 32) =
        (runner.execute_async runner.get_inputs runner.get_outputs).1) ∧
    (∀ env2 : EnvParam,
      (run ext env2 st idx).1.calls.filter Call.is_runtime =
        (run ext env st idx).1.calls.filter Call.is_runtime) ∧
    ∃ added : List (Call F), (run ext env st idx).1.calls = st.calls ++ added ∧
      ∀ c ∈ added, ∀ j, c.runner_index = some j → j = idx := by
  have h := run_calls ext env st idx runner hr
  refine ⟨h.1, h.2.1, fun hv => ?_, fun env2 => ?_, h.2.2⟩
  · exact_mod_cast to_signed_32_id _ hv
  · rw [h.2.1, (run_calls ext env2 st idx runner hr).2.1]

theorem run_one_request_one_wait_witness :
    sample_state.task.runners_[0]? = some sample_runner ∧
    (run sample_ext sample_env sample_state 0).2 = none ∧
    (run sample_ext sample_env sample_state 0).1.calls.filter Call.is_runtime =
      sample_state.calls.filter Call.is_runtime ++
        [.get_inputs 0, .get_outputs 0,
         .execute_async 0 sample_runner.get_inputs sample_runner.get_outputs,
         .wait 0
            (to_signed 32
              ((sample_runner.execute_async sample_runner.get_inputs
                sample_runner.get_outputs).1 % 2 ^ 32))
            (-1)] :=
  ⟨rfl, (run_one_request_one_wait sample_ext sample_env sample_state 0 sample_runner rfl).1,
    (run_one_request_one_wait sample_ext sample_env sample_state 0 sample_runner rfl).2.1⟩

/-! ## Image submission: properties -/

theorem copy_line_by_line_apply (mem : Mem) (data cols channels stride : Nat) (input : Mem) :
    ∀ (rows a : Nat),
      copy_line_by_line mem data rows cols channels stride input a =
        if data ≤ a ∧ a < data + rows * (cols * channels) then
          input ((a - data) / (cols * channels) * stride + (a - data) % (cols * channels))
        else mem a := by
  intro rows
  induction rows with
  | zero =>
    intro a
    rw [if_neg (by omega)]
    rfl
  | succ k ih =>
    intro a
    have hstep : copy_line_by_line mem data (k + 1) cols channels stride input =
        memcpy (copy_line_by_line mem data k cols channels stride input)
          (data + k * cols * channels) input (k * stride) (cols * channels) := by
      simp [copy_line_by_line, List.range_succ, List.foldl_append]
    rw [hstep]
    unfold memcpy
    rw [ih a, Nat.mul_assoc, Nat.succ_mul]
    generalize cols * channels = W
    by_cases hnew : data + k * W ≤ a ∧ a < data + k * W + W
    · have h1 : data ≤ a ∧ a < data + (k * W + W) := by omega
      rw [if_pos hnew, if_pos h1]
      have hdiv : (a - data) / W = k := by
        apply Nat.div_eq_of_lt_le
        · omega
        · rw [Nat.succ_mul]; omega
      have hmod : (a - data) % W = a - (data + k * W) := by
        rw [Nat.mod_def, hdiv, Nat.mul_comm W k]
        omega
      rw [hdiv, hmod]
    · rw [if_neg hnew]
      by_cases hold : data ≤ a ∧ a < data + k * W
      · have h1 : data ≤ a ∧ a < data + (k * W + W) := by omega
        rw [if_pos hold, if_pos h1]
      · have h1 : ¬ (data ≤ a ∧ a < data + (k * W + W)) := by omega
        rw [if_neg hold, if_neg h1]

theorem copy_line_by_line_rows (mem : Mem) (data rows cols channels stride : Nat) (input : Mem) :
    (∀ r j, r < rows → j < cols * channels →
      copy_line_by_line mem data rows cols channels stride input (data + r * cols * channels + j) =
        input (r * stride + j)) ∧
    (stride = cols * channels → ∀ i, i < rows * cols * channels →
      copy_line_by_line mem data rows cols channels stride input (data + i) = input i) ∧
    (∀ i, rows * cols * channels ≤ i →
      copy_line_by_line mem data rows cols channels stride input (data + i) = mem (data + i)) ∧
    (∀ a, a < data →
      copy_line_by_line mem data rows cols channels stride input a = mem a) := by
  refine ⟨?_, ?_, ?_, ?_⟩
  · intro r j hr hj
    rw [copy_line_by_line_apply, Nat.mul_assoc]
    generalize cols * channels = W at hj ⊢
    have hlt : r * W + j < rows * W := by
      calc r * W + j < r * W + W := by omega
        _ = (r + 1) * W := by rw [Nat.succ_mul]
        _ ≤ rows * W := Nat.mul_le_mul_right W hr
    have hsub : data + r * W + j - data = j + r * W := by omega
    rw [if_pos ⟨by omega, by omega⟩, hsub, Nat.add_mul_div_right _ _ (by omega),
      Nat.add_mul_mod_self_right, Nat.div_eq_of_lt hj, Nat.mod_eq_of_lt hj, Nat.zero_add]
  · intro hst i hi
    rw [copy_line_by_line_apply, hst]
    rw [Nat.mul_assoc] at hi
    generalize cols * channels = W at hi ⊢
    rw [if_pos ⟨by omega, by omega⟩, Nat.add_sub_cancel_left, Nat.div_add_mod']
  · intro i hi
    rw [copy_line_by_line_apply]
    rw [Nat.mul_assoc] at hi
    rw [if_neg (by omega)]
  · intro a ha
    rw [copy_line_by_line_apply, if_neg (by omega)]

theorem getInputTensor_loop_calls {F : Type} (ext : Externals F) (env : EnvParam)
    (scales : List F) (ts : List TensorBuffer) :
    ∀ (c : Nat) (ret : List InputTensor) (st : State F),
      ∃ logs : List (Call F), (∀ x ∈ logs, x.is_normalize = false) ∧
        (getInputTensor_loop ext env scales ts c ret st).1.calls = st.calls ++ logs := by
  induction ts with
  | nil => intro c ret st; exact ⟨[], by simp, by simp [getInputTensor_loop]⟩
  | cons t ts ih =>
    intro c ret st
    unfold getInputTensor_loop
    cases hs : scales[c]? with
    | none => exact ⟨[], by simp, by simp⟩
    | some scale =>
      simp only []
      obtain ⟨logs, hlogs, hcalls⟩ := ih (c + 1)
        (ret ++ [convert_tensor_buffer_to_input_tensor ext t scale])
        (st.log_if (env.DEBUG_DPBASE != 0))
      rw [hcalls]
      by_cases hd : (env.DEBUG_DPBASE != 0) = true
      · refine ⟨Call.log_info :: logs, ?_, by simp [State.log_if, State.call, hd]⟩
        intro x hx
        rcases List.mem_cons.mp hx with rfl | hx
        · rfl
        · exact hlogs x hx
      · exact ⟨logs, hlogs, by simp [State.log_if, hd]⟩

theorem getInputTensor_first {F : Type} (ext : Externals F) (env : EnvParam) (st : State F)
    (runner : DpuRunner F) (tb : TensorBuffer) (tbs : List TensorBuffer) (q0 : F) (qs : List F)
    (hr : st.task.runners_[0]? = some runner)
    (hin : runner.get_inputs = tb :: tbs)
    (hq : runner.get_input_scale = q0 :: qs)
    (hlen : tbs.length ≤ qs.length) :
    ∃ (st1 : State F) (rest : List InputTensor) (logs : List (Call F)),
      getInputTensor ext env st 0 =
        (st1, .ok (convert_tensor_buffer_to_input_tensor ext tb q0 :: rest)) ∧
      st1.task = st.task ∧ st1.mem = st.mem ∧
      (∀ x ∈ logs, x.is_normalize = false) ∧ st1.calls = st.calls ++ logs := by
  have hval := getInputTensor_ok ext env st 0 runner hr (by simp [hin, hq, hlen])
  have hframe := getInputTensor_frame ext env st 0
  have hcalls : ∃ logs : List (Call F), (∀ x ∈ logs, x.is_normalize = false) ∧
      (getInputTensor ext env st 0).1.calls = st.calls ++ logs := by
    unfold getInputTensor
    rw [hr]
    obtain ⟨logs, hlogs, hc⟩ := getInputTensor_loop_calls ext env runner.get_input_scale
      runner.get_inputs 0 [] ((st.call [.get_inputs 0]).call [.get_input_scale 0])
    refine ⟨[.get_inputs 0, .get_input_scale 0] ++ logs, ?_, ?_⟩
    · intro x hx
      rcases List.mem_append.mp hx with hx | hx
      · simp only [List.mem_cons, List.mem_singleton, List.not_mem_nil, or_false] at hx
        rcases hx with rfl | rfl <;> rfl
      · exact hlogs x hx
    · simp only []
      rw [hc]
      simp [State.call]
  obtain ⟨logs, hlogs, hc⟩ := hcalls
  rw [hin, hq, List.zipWith_cons_cons] at hval
  refine ⟨(getInputTensor ext env st 0).1,
    List.zipWith (convert_tensor_buffer_to_input_tensor ext) tbs qs, logs, ?_, hframe.1,
    hframe.2, hlogs, hc⟩
  rw [← hval]

theorem setImageBGR_eq {F : Type} (ext : Externals F) (env : EnvParam) (st st1 : State F)
    (input : Mem) (stride : Nat) (t : InputTensor) (rest : List InputTensor)
    (s0 s1 s2 : F) (srest : List F)
    (hg : getInputTensor ext env st 0 = (st1, .ok (t :: rest)))
    (hscale : st1.task.scale_ = s0 :: s1 :: s2 :: srest) :
    setImageBGR ext env st input stride =
      if st1.task.do_mean_scale_ then
        ({ st1.call [.NormalizeInputData input t.height t.width t.channel stride st1.task.mean_
              [ext.fmul s0 (ext.tensor_scale t), ext.fmul s1 (ext.tensor_scale t),
               ext.fmul s2 (ext.tensor_scale t)] t.data] with
            mem := ext.NormalizeInputData input t.height t.width t.channel stride st1.task.mean_
              [ext.fmul s0 (ext.tensor_scale t), ext.fmul s1 (ext.tensor_scale t),
               ext.fmul s2 (ext.tensor_scale t)] t.data st1.mem }, none)
      else
        ({ st1 with
            mem := copy_line_by_line st1.mem t.data t.height t.width t.channel stride input },
          none) := by
  unfold setImageBGR
  rw [hg]
  simp [real_scale, hscale]

theorem setImageRGB_eq {F : Type} (ext : Externals F) (env : EnvParam) (st st1 : State F)
    (input : Mem) (stride : Nat) (t : InputTensor) (rest : List InputTensor)
    (s0 s1 s2 : F) (srest : List F)
    (hg : getInputTensor ext env st 0 = (st1, .ok (t :: rest)))
    (hscale : st1.task.scale_ = s0 :: s1 :: s2 :: srest) :
    setImageRGB ext env st input stride =
      if st1.task.do_mean_scale_ then
        (debug_imwrite env
          { (debug_imwrite env st1 "before_setinput_image.bmp").call
              [.NormalizeInputDataRGB input t.height t.width t.channel stride st1.task.mean_
                [ext.fmul s0 (ext.tensor_scale t), ext.fmul s1 (ext.tensor_scale t),
                 ext.fmul s2 (ext.tensor_scale t)] t.data] with
            mem := ext.NormalizeInputDataRGB input t.height t.width t.channel stride
              st1.task.mean_
              [ext.fmul s0 (ext.tensor_scale t), ext.fmul s1 (ext.tensor_scale t),
               ext.fmul s2 (ext.tensor_scale t)] t.data st1.mem }
          "after_setinput_image.bmp", none)
      else
        (debug_imwrite env st1 "before_setinput_image.bmp", some .assert_failed) := by
  unfold setImageRGB
  rw [hg]
  simp [real_scale, hscale, debug_imwrite_task, debug_imwrite_mem]

theorem filter_normalize_logs {F : Type} (logs : List (Call F))
    (h : ∀ x ∈ logs, x.is_normalize = false) : logs.filter Call.is_normalize = [] := by
  rw [List.filter_eq_nil_iff]
  intro x hx
  rw [h x hx]
  simp

theorem debug_imwrite_calls {F : Type} (env : EnvParam) (st : State F) (filename : String) :
    (debug_imwrite env st filename).calls.filter Call.is_normalize =
      st.calls.filter Call.is_normalize := by
  unfold debug_imwrite State.call
  split <;> simp [List.filter_cons, Call.is_normalize]

/-- C4: with normalization enabled, `setImageBGR` and `setImageRGB` each make
one call of their normalization routine, and its arguments are the caller's
buffer and row stride, the height, width and channel count of the first input
tensor of runner 0, the stored mean as it is, and a scale of exactly three
entries, entry `c` being the stored `scale_[c]` times the quantization scale
`tensor_scale` of that tensor. -/
theorem setImage_normalize_arguments {F : Type} (ext : Externals F) (env : EnvParam)
    (st : State F) (input : Mem) (stride : Nat) (runner : DpuRunner F) (tb : TensorBuffer)
    (tbs : List TensorBuffer) (q0 : F) (qs : List F) (s0 s1 s2 : F) (srest : List F)
    (t : InputTensor) (eff : List F)
    (hon : st.task.do_mean_scale_ = true)
    (hr : st.task.runners_[0]? = some runner)
    (hin : runner.get_inputs = tb :: tbs)
    (hq : runner.get_input_scale = q0 :: qs)
    (hlen : tbs.length ≤ qs.length)
    (hscale : st.task.scale_ = s0 :: s1 :: s2 :: srest)
    (ht : t = convert_tensor_buffer_to_input_tensor ext tb q0)
    (heff : eff = [ext.fmul s0 (ext.tensor_scale t), ext.fmul s1 (ext.tensor_scale t),
      ext.fmul s2 (ext.tensor_scale t)]) :
    ((setImageBGR ext env st input stride).2 = none ∧
      (setImageBGR ext env st input stride).1.calls.filter Call.is_normalize =
        st.calls.filter Call.is_normalize ++
          [.NormalizeInputData input t.height t.width t.channel stride st.task.mean_ eff t.data] ∧
      (setImageBGR ext env st input stride).1.mem =
        ext.NormalizeInputData input t.height t.width t.channel stride st.task.mean_ eff t.data
          st.mem) ∧
    ((setImageRGB ext env st input stride).2 = none ∧
      (setImageRGB ext env st input stride).1.calls.filter Call.is_normalize =
        st.calls.filter Call.is_normalize ++
          [.NormalizeInputDataRGB input t.height t.width t.channel stride st.task.mean_ eff
            t.data] ∧
      (setImageRGB ext env st input stride).1.mem =
        ext.NormalizeInputDataRGB input t.height t.width t.channel stride st.task.mean_ eff
          t.data st.mem) ∧
    eff.length = 3 ∧
    t.height = tb.get_tensor.get_dim_size 1 ∧ t.width = tb.get_tensor.get_dim_size 2 ∧
    t.channel = tb.get_tensor.get_dim_size 3 := by
  obtain ⟨st1, rest, logs, hg, htask, hmem, hlogs, hcalls⟩ :=
    getInputTensor_first ext env st runner tb tbs q0 qs hr hin hq hlen
  rw [← ht] at hg
  have hscale1 : st1.task.scale_ = s0 :: s1 :: s2 :: srest := by rw [htask]; exact hscale
  have hon1 : st1.task.do_mean_scale_ = true := by rw [htask]; exact hon
  have hfl := filter_normalize_logs logs hlogs
  refine ⟨?_, ?_, by rw [heff]; rfl, by rw [ht]; rfl, by rw [ht]; rfl, by rw [ht]; rfl⟩
  · rw [setImageBGR_eq ext env st st1 input stride t rest s0 s1 s2 srest hg hscale1, if_pos hon1,
      ← heff]
    refine ⟨rfl, ?_, ?_⟩
    · simp [State.call, hcalls, hfl, htask, List.filter_cons, Call.is_normalize]
    · simp [htask, hmem]
  · rw [setImageRGB_eq ext env st st1 input stride t rest s0 s1 s2 srest hg hscale1, if_pos hon1,
      ← heff]
    refine ⟨rfl, ?_, ?_⟩
    · simp [debug_imwrite_calls, State.call, hcalls, hfl, htask, List.filter_cons,
        Call.is_normalize]
    · simp [debug_imwrite_mem, htask, hmem]

theorem setImage_normalize_arguments_witness :
    (setImageBGR sample_ext sample_env sample_state_on sample_image 6).1.calls.filter
        Call.is_normalize =
      sample_state_on.calls.filter Call.is_normalize ++
        [.NormalizeInputData sample_image
          (convert_tensor_buffer_to_input_tensor sample_ext sample_input_buffer 64).height
          (convert_tensor_buffer_to_input_tensor sample_ext sample_input_buffer 64).width
          (convert_tensor_buffer_to_input_tensor sample_ext sample_input_buffer 64).channel
          6 sample_state_on.task.mean_
          [sample_ext.fmul 1 (sample_ext.tensor_scale
              (convert_tensor_buffer_to_input_tensor sample_ext sample_input_buffer 64)),
           sample_ext.fmul 1 (sample_ext.tensor_scale
              (convert_tensor_buffer_to_input_tensor sample_ext sample_input_buffer 64)),
           sample_ext.fmul 1 (sample_ext.tensor_scale
              (convert_tensor_buffer_to_input_tensor sample_ext sample_input_buffer 64))]
          (convert_tensor_buffer_to_input_tensor sample_ext sample_input_buffer 64).data] :=
  (setImage_normalize_arguments sample_ext sample_env sample_state_on sample_image 6
    sample_runner sample_input_buffer [] 64 [] 1 1 1 [] _ _ rfl rfl rfl rfl (by decide) rfl rfl
    rfl).1.2.1

/-- C5: with normalization disabled, `setImageBGR` returns after copying the
rows unchanged: for every row `r < rows` and offset `j < cols*channels`, byte
`r*cols*channels + j` of the destination is byte `r*stride + j` of the
source; when `stride = cols*channels` the first `rows*cols*channels`
destination bytes are the source bytes in order; and the destination bytes
from index `rows*cols*channels` on, like the bytes before the destination, are
as before. Here `rows`, `cols`, `channels` and the destination are the
height, width, channel count and data address of the first input tensor of
runner 0. -/
theorem setImageBGR_raw_copy {F : Type} (ext : Externals F) (env : EnvParam)
    (st : State F) (input : Mem) (stride : Nat) (runner : DpuRunner F) (tb : TensorBuffer)
    (tbs : List TensorBuffer) (q0 : F) (qs : List F) (t : InputTensor)
    (hoff : st.task.do_mean_scale_ = false)
    (hr : st.task.runners_[0]? = some runner)
    (hin : runner.get_inputs = tb :: tbs)
    (hq : runner.get_input_scale = q0 :: qs)
    (hlen : tbs.length ≤ qs.length)
    (hscale : 3 ≤ st.task.scale_.length)
    (ht : t = convert_tensor_buffer_to_input_tensor ext tb q0) :
    (setImageBGR ext env st input stride).2 = none ∧
    (setImageBGR ext env st input stride).1.mem =
      copy_line_by_line st.mem t.data t.height t.width t.channel stride input ∧
    (∀ r j, r < t.height → j < t.width * t.channel →
      (setImageBGR ext env st input stride).1.mem (t.data + r * t.width * t.channel + j) =
        input (r * stride + j)) ∧
    (stride = t.width * t.channel → ∀ i, i < t.height * t.width * t.channel →
      (setImageBGR ext env st input stride).1.mem (t.data + i) = input i) ∧
    (∀ i, t.height * t.width * t.channel ≤ i →
      (setImageBGR ext env st input stride).1.mem (t.data + i) = st.mem (t.data + i)) ∧
    (∀ a, a < t.data → (setImageBGR ext env st input stride).1.mem a = st.mem a) ∧
    (setImageBGR ext env st input stride).1.calls.filter Call.is_normalize =
      st.calls.filter Call.is_normalize := by
  obtain ⟨st1, rest, logs, hg, htask, hmem, hlogs, hcalls⟩ :=
    getInputTensor_first ext env st runner tb tbs q0 qs hr hin hq hlen
  rw [← ht] at hg
  obtain ⟨s0, s1, s2, srest, hsc⟩ : ∃ s0 s1 s2 srest, st.task.scale_ = s0 :: s1 :: s2 :: srest := by
    rcases hsc : st.task.scale_ with _ | ⟨s0, _ | ⟨s1, _ | ⟨s2, srest⟩⟩⟩
    · rw [hsc] at hscale; simp at hscale
    · rw [hsc] at hscale; simp at hscale
    · rw [hsc] at hscale; simp at hscale
    · exact ⟨s0, s1, s2, srest, rfl⟩
  have hscale1 : st1.task.scale_ = s0 :: s1 :: s2 :: srest := by rw [htask]; exact hsc
  have hoff1 : ¬ st1.task.do_mean_scale_ = true := by rw [htask, hoff]; simp
  have hfl := filter_normalize_logs logs hlogs
  have hcopy := copy_line_by_line_rows st.mem t.data t.height t.width t.channel stride input
  rw [setImageBGR_eq ext env st st1 input stride t rest s0 s1 s2 srest hg hscale1, if_neg hoff1]
  simp only [hmem]
  exact ⟨trivial, trivial, hcopy.1, hcopy.2.1, hcopy.2.2.1, hcopy.2.2.2, by simp [hcalls, hfl]⟩

theorem setImageBGR_raw_copy_witness :
    (setImageBGR sample_ext sample_env sample_state sample_image 6).2 = none ∧
    (setImageBGR sample_ext sample_env sample_state sample_image 6).1.mem =
      copy_line_by_line sample_state.mem
        (convert_tensor_buffer_to_input_tensor sample_ext sample_input_buffer 64).data
        (convert_tensor_buffer_to_input_tensor sample_ext sample_input_buffer 64).height
        (convert_tensor_buffer_to_input_tensor sample_ext sample_input_buffer 64).width
        (convert_tensor_buffer_to_input_tensor sample_ext sample_input_buffer 64).channel
        6 sample_image :=
  ⟨(setImageBGR_raw_copy sample_ext sample_env sample_state sample_image 6 sample_runner
      sample_input_buffer [] 64 [] _ rfl rfl rfl rfl (by decide) (by decide) rfl).1,
    (setImageBGR_raw_copy sample_ext sample_env sample_state sample_image 6 sample_runner
      sample_input_buffer [] 64 [] _ rfl rfl rfl rfl (by decide) (by decide) rfl).2.1⟩

/-- C6, as the code has it: when runner 0 reports a first input tensor and the
reads of the calls are in bounds, `setImageRGB` ends in the failed assertion
exactly when normalization is disabled and returns exactly when it is enabled;
in the disabled case it leaves the memory untouched and calls no normalization
routine, while `setImageBGR` in the same state returns and performs the raw
copy. -/
theorem setImageRGB_assert_iff_disabled {F : Type} (ext : Externals F) (env : EnvParam)
    (st : State F) (input : Mem) (stride : Nat) (runner : DpuRunner F) (tb : TensorBuffer)
    (tbs : List TensorBuffer) (q0 : F) (qs : List F) (t : InputTensor)
    (hr : st.task.runners_[0]? = some runner)
    (hin : runner.get_inputs = tb :: tbs)
    (hq : runner.get_input_scale = q0 :: qs)
    (hlen : tbs.length ≤ qs.length)
    (hscale : 3 ≤ st.task.scale_.length)
    (ht : t = convert_tensor_buffer_to_input_tensor ext tb q0) :
    ((setImageRGB ext env st input stride).2 = some .assert_failed ↔
      st.task.do_mean_scale_ = false) ∧
    ((setImageRGB ext env st input stride).2 = none ↔ st.task.do_mean_scale_ = true) ∧
    (st.task.do_mean_scale_ = false →
      (setImageRGB ext env st input stride).1.mem = st.mem ∧
      (setImageRGB ext env st input stride).1.calls.filter Call.is_normalize =
        st.calls.filter Call.is_normalize ∧
      (setImageBGR ext env st input stride).2 = none ∧
      (setImageBGR ext env st input stride).1.mem =
        copy_line_by_line st.mem t.data t.height t.width t.channel stride input) := by
  obtain ⟨st1, rest, logs, hg, htask, hmem, hlogs, hcalls⟩ :=
    getInputTensor_first ext env st runner tb tbs q0 qs hr hin hq hlen
  rw [← ht] at hg
  obtain ⟨s0, s1, s2, srest, hsc⟩ : ∃ s0 s1 s2 srest, st.task.scale_ = s0 :: s1 :: s2 :: srest := by
    rcases hsc : st.task.scale_ with _ | ⟨s0, _ | ⟨s1, _ | ⟨s2, srest⟩⟩⟩
    · rw [hsc] at hscale; simp at hscale
    · rw [hsc] at hscale; simp at hscale
    · rw [hsc] at hscale; simp at hscale
    · exact ⟨s0, s1, s2, srest, rfl⟩
  have hscale1 : st1.task.scale_ = s0 :: s1 :: s2 :: srest := by rw [htask]; exact hsc
  have hfl := filter_normalize_logs logs hlogs
  have hrgb := setImageRGB_eq ext env st st1 input stride t rest s0 s1 s2 srest hg hscale1
  have hbgr := setImageBGR_eq ext env st st1 input stride t rest s0 s1 s2 srest hg hscale1
  rw [htask] at hrgb hbgr
  cases hflag : st.task.do_mean_scale_ with
  | true =>
    rw [hflag, if_pos rfl] at hrgb
    rw [hrgb]
    simp
  | false =>
    rw [hflag, if_neg (by simp)] at hrgb hbgr
    rw [hrgb, hbgr]
    simp [debug_imwrite_mem, debug_imwrite_calls, hmem, hcalls, hfl]

theorem setImageRGB_assert_iff_disabled_witness :
    (setImageRGB sample_ext sample_env sample_state sample_image 6).2 = some .assert_failed ↔
      sample_state.task.do_mean_scale_ = false :=
  (setImageRGB_assert_iff_disabled sample_ext sample_env sample_state sample_image 6
    sample_runner sample_input_buffer [] 64 [] _ rfl rfl rfl (by decide) (by decide) rfl).1

/-- C6, as stated, fails: in a state with normalization disabled whose runner 0
reports no input tensor, `setImageBGR` aborts at `CHECK_GT`, and the abort of
`setImageRGB` is that check and not the assertion; with normalization enabled
`setImageRGB` aborts there as well. -/
theorem setImage_abort_counterexample :
    sample_state_no_input.task.do_mean_scale_ = false ∧
    (setImageBGR sample_ext sample_env sample_state_no_input sample_image 6).2 =
      some .check_failed ∧
    (setImageRGB sample_ext sample_env sample_state_no_input sample_image 6).2 =
      some .check_failed ∧
    sample_state_no_input_on.task.do_mean_scale_ = true ∧
    (setImageRGB sample_ext sample_env sample_state_no_input_on sample_image 6).2 =
      some .check_failed :=
  ⟨rfl, rfl, rfl, rfl, rfl⟩

end DpuTask
